import Mathlib

set_option maxRecDepth 8000

/-!
Verification development for the agentctx memory core.

The Python modules under `src/agentctx` are shallowly embedded here:
Python `str` values become `List Char` (Python strings are sequences of
Unicode codepoints, as is `List Char`), files become `Option (List Char)`
(`none` models a missing file), `datetime.date` becomes a year/month/day
record with the validity predicate enforced by its constructor, and code
that can raise returns `Option`.  The two pieces of ambient environment a
run depends on — the sha256 implementation from `hashlib` and the compiled
regex substitution pass of `Sanitizer._strip_injections` — are passed in as
function parameters (`hashContent`, `redact`), so every theorem quantifies
over them.
-/

namespace Agentctx

abbrev Str := List Char

/-- The whitespace class of Python: the characters for which `str.isspace`
holds, which is also the set stripped by `str.strip()` / `str.rstrip()` and
matched by the regex class `\s` on `str` patterns. -/
def pyIsSpace (c : Char) : Bool :=
  let n := c.toNat
  (9 ≤ n && n ≤ 13) || (28 ≤ n && n ≤ 32) || n == 133 || n == 160 ||
  n == 0x1680 || (0x2000 ≤ n && n ≤ 0x200a) || n == 0x2028 || n == 0x2029 ||
  n == 0x202f || n == 0x205f || n == 0x3000

/-- Python `str.lstrip()` (no argument): drop leading whitespace. -/
def pyLstrip (l : Str) : Str := l.dropWhile pyIsSpace

/-- Python `str.rstrip()` (no argument): drop trailing whitespace. -/
def pyRstrip (l : Str) : Str := (l.reverse.dropWhile pyIsSpace).reverse

/-- Python `str.strip()` (no argument). -/
def pyStrip (l : Str) : Str := pyRstrip (pyLstrip l)

/-- Python `str.lstrip(chars)`: drop leading characters drawn from `chars`. -/
def pyLstripSet (chars : Str) (l : Str) : Str := l.dropWhile (fun c => chars.contains c)

/-- Python `"sep".join(parts)`. -/
def joinSep (sep : Str) : List Str → Str
  | [] => []
  | [x] => x
  | x :: xs => x ++ sep ++ joinSep sep xs

/-- `datetime.date`: a calendar date.  The embedding carries the raw fields;
`Date.valid` states the constraint that `datetime.date` enforces at
construction time (and that `date.fromisoformat` checks before returning). -/
structure Date where
  year : Nat
  month : Nat
  day : Nat
deriving DecidableEq, Repr

def isLeap (y : Nat) : Bool := y % 4 == 0 && (y % 100 != 0 || y % 400 == 0)

def daysInMonth (y m : Nat) : Nat :=
  if m == 2 then (if isLeap y then 29 else 28)
  else if m == 4 || m == 6 || m == 9 || m == 11 then 30
  else 31

/-- The range restrictions of `datetime.date`. -/
def Date.valid (d : Date) : Bool :=
  1 ≤ d.year && d.year ≤ 9999 && 1 ≤ d.month && d.month ≤ 12 &&
  1 ≤ d.day && d.day ≤ daysInMonth d.year d.month

/-- Chronological order on dates (Python `date` comparison). -/
def Date.le (a b : Date) : Bool :=
  a.year < b.year ||
  (a.year == b.year && (a.month < b.month || (a.month == b.month && a.day ≤ b.day)))

/-- `date.toordinal()`: day number in the proleptic Gregorian calendar. -/
def daysBeforeMonth (y m : Nat) : Nat :=
  [0, 31, 59, 90, 120, 151, 181, 212, 243, 273, 304, 334].getD (m - 1) 0 +
    (if 3 ≤ m && isLeap y then 1 else 0)

def Date.toOrdinal (d : Date) : Nat :=
  (d.year - 1) * 365 + (d.year - 1) / 4 - (d.year - 1) / 100 + (d.year - 1) / 400 +
    daysBeforeMonth d.year d.month + d.day

/-- Zero-padded two-digit decimal rendering, as in `"%02d" % n` for `n ≤ 99`. -/
def pad2 (n : Nat) : Str := [Nat.digitChar (n / 10 % 10), Nat.digitChar (n % 10)]

/-- Zero-padded four-digit decimal rendering, as in `"%04d" % n` for `n ≤ 9999`. -/
def pad4 (n : Nat) : Str :=
  [Nat.digitChar (n / 1000 % 10), Nat.digitChar (n / 100 % 10),
   Nat.digitChar (n / 10 % 10), Nat.digitChar (n % 10)]

/-- `str(date)`: ISO `YYYY-MM-DD` (Python formats with `%04d-%02d-%02d`). -/
def fmtDate (d : Date) : Str := pad4 d.year ++ '-' :: pad2 d.month ++ '-' :: pad2 d.day

/-- `PRIORITY_MARKERS` from `observation_log.py` (each marker is one codepoint). -/
def PRIORITY_MARKERS : List Char := ['🔴', '🟡', '🟢']

/-- `ObservationEntry` from `memory/observation_log.py`. -/
structure ObservationEntry where
  priority : Char
  observed_on : Date
  event_date : Date
  text : Str
  external : Bool := false
deriving DecidableEq, Repr

/-- `ObservationEntry.relative_lag`, with `today` made an explicit argument. -/
def ObservationEntry.relative_lag (e : ObservationEntry) (today : Date) : Str :=
  let delta : Int := (today.toOrdinal : Int) - (e.event_date.toOrdinal : Int)
  if delta == 0 then "today".data
  else if delta == 1 then "1_day_ago".data
  else (toString delta).data ++ "_days_ago".data

/-- The storage-form header of `ObservationEntry.serialize` (the f-string
`"{priority} observed_on:{observed_on} event_date:{event_date}{ext}"`). -/
def ObservationEntry.serializeHeader (e : ObservationEntry) : Str :=
  e.priority :: " observed_on:".data ++ fmtDate e.observed_on ++
    " event_date:".data ++ fmtDate e.event_date ++
    (if e.external then " [EXT]".data else [])

/-- `ObservationEntry.serialize`: header, newline, text. -/
def ObservationEntry.serialize (e : ObservationEntry) : Str :=
  e.serializeHeader ++ '\n' :: e.text

/-- `ObservationEntry.render`: like `serialize` but with the derived
`relative:` field in the header. -/
def ObservationEntry.render (e : ObservationEntry) (today : Date) : Str :=
  e.priority :: " observed_on:".data ++ fmtDate e.observed_on ++
    " event_date:".data ++ fmtDate e.event_date ++
    " relative:".data ++ e.relative_lag today ++
    (if e.external then " [EXT]".data else []) ++ '\n' :: e.text

/-! ## The journal parser (`ObservationLog._parse`) -/

mutual

/-- `re.split(r"\n{2,}", s)`: split on maximal runs of two or more newlines.
`splitBlocksGo` accumulates the current block; on a double newline it emits
the block and `splitBlocksSkip` consumes the rest of the (greedy) separator
run. -/
def splitBlocksGo : Str → Str → List Str
  | [], acc => [acc.reverse]
  | '\n' :: '\n' :: rest, acc => acc.reverse :: splitBlocksSkip rest
  | c :: rest, acc => splitBlocksGo rest (c :: acc)

def splitBlocksSkip : Str → List Str
  | [] => [[]]
  | '\n' :: rest => splitBlocksSkip rest
  | c :: rest => splitBlocksGo rest [c]

end

def splitBlocks (l : Str) : List Str := splitBlocksGo l []

/-- Whether a string contains two consecutive newlines (a blank line), the
shape `re.split(r"\n{2,}", ·)` cuts at. -/
def hasDoubleNl : Str → Bool
  | [] => false
  | c :: rest => (c = '\n' && rest.head? = some '\n') || hasDoubleNl rest

/-- Python `block.split("\n", 1)`: the part before the first newline, and
the remainder when a newline is present. -/
def splitFirstNl : Str → Str × Option Str
  | [] => ([], none)
  | c :: rest =>
    if c = '\n' then ([], some rest)
    else (c :: (splitFirstNl rest).1, (splitFirstNl rest).2)

/-- Matching one literal character sequence at the head of the input. -/
def litChars : Str → Str → Option Str
  | [], rest => some rest
  | p :: ps, c :: cs => if c = p then litChars ps cs else none
  | _ :: _, [] => none

/-- The regex piece `\s+` followed by a non-whitespace continuation:
requires at least one whitespace character and consumes the maximal run. -/
def reqSpaces (l : Str) : Option Str :=
  match l with
  | c :: _ => if pyIsSpace c then some (l.dropWhile pyIsSpace) else none
  | [] => none

/-- The regex piece `\S+`: at least one non-whitespace character, maximal run. -/
def reqNonSpaces (l : Str) : Option Str :=
  match l with
  | c :: _ => if pyIsSpace c then none else some (l.dropWhile (fun c => !pyIsSpace c))
  | [] => none

/-- One `\d` character. -/
def parseDigit (c : Char) : Option Nat :=
  if c.isDigit then some (c.toNat - '0'.toNat) else none

/-- `\d{2}`. -/
def parse2 : Str → Option (Nat × Str)
  | a :: b :: rest =>
    match parseDigit a, parseDigit b with
    | some x, some y => some (10 * x + y, rest)
    | _, _ => none
  | _ => none

/-- `\d{4}`. -/
def parse4 : Str → Option (Nat × Str)
  | a :: b :: c :: d :: rest =>
    match parseDigit a, parseDigit b, parseDigit c, parseDigit d with
    | some x1, some x2, some x3, some x4 =>
      some (1000 * x1 + 100 * x2 + 10 * x3 + x4, rest)
    | _, _, _, _ => none
  | _ => none

/-- The regex group `(\d{4}-\d{2}-\d{2})`.  Digits are read without range
validation, exactly as the regex does; `date.fromisoformat`'s validation
happens later, at entry-construction time. -/
def parseDateChars (l : Str) : Option (Date × Str) :=
  match parse4 l with
  | none => none
  | some (y, l1) =>
    match l1 with
    | '-' :: l2 =>
      match parse2 l2 with
      | none => none
      | some (m, l3) =>
        match l3 with
        | '-' :: l4 =>
          match parse2 l4 with
          | none => none
          | some (d, l5) => some (⟨y, m, d⟩, l5)
        | _ => none
    | _ => none

/-- The optional regex group `(?:\s+relative:\S+)?`: consumed when it
matches, otherwise the input is left untouched. -/
def matchRelative (l : Str) : Str :=
  match reqSpaces l with
  | none => l
  | some r =>
    match litChars "relative:".data r with
    | none => l
    | some r2 =>
      match reqNonSpaces r2 with
      | none => l
      | some r3 => r3

/-- The optional regex group `(\s+\[EXT\])?`; its presence is what
`bool(m.group(4))` reports. -/
def matchExt (l : Str) : Bool :=
  match reqSpaces l with
  | none => false
  | some r => (litChars "[EXT]".data r).isSome

/-- The date fields of `_HEADER_RE`:
`\s+observed_on:(\d{4}-\d{2}-\d{2})\s+event_date:(\d{4}-\d{2}-\d{2})`,
returning the two captures and the unconsumed tail. -/
def matchHeaderDates (l : Str) : Option (Date × Date × Str) :=
  match reqSpaces l with
  | none => none
  | some r1 =>
    match litChars "observed_on:".data r1 with
    | none => none
    | some r2 =>
      match parseDateChars r2 with
      | none => none
      | some (d1, r3) =>
        match reqSpaces r3 with
        | none => none
        | some r4 =>
          match litChars "event_date:".data r4 with
          | none => none
          | some r5 =>
            match parseDateChars r5 with
            | none => none
            | some (d2, r6) => some (d1, d2, r6)

/-- `_HEADER_RE.match(header)`: anchored at the start, trailing garbage
after the groups is ignored (the pattern is not end-anchored). -/
def matchHeader (l : Str) : Option (Char × Date × Date × Bool) :=
  match l with
  | [] => none
  | g :: rest =>
    if PRIORITY_MARKERS.contains g then
      match matchHeaderDates rest with
      | none => none
      | some (d1, d2, r6) => some (g, d1, d2, matchExt (matchRelative r6))
    else none

/-- Result of handling one block inside `ObservationLog._parse`: skipped,
parsed to an entry, or aborted by a `ValueError` from `date.fromisoformat`
(a header whose digits pass the regex but denote an invalid date). -/
inductive BlockResult where
  | skip : BlockResult
  | entry : ObservationEntry → BlockResult
  | err : BlockResult

/-- The per-block body of `ObservationLog._parse`. -/
def parseBlock (block : Str) : BlockResult :=
  let b := pyStrip block
  if b.isEmpty then .skip
  else
    let (header, rest) := splitFirstNl b
    let text := match rest with
      | some t => pyStrip t
      | none => []
    match matchHeader header with
    | none => .skip
    | some (g, d1, d2, ext) =>
      if d1.valid && d2.valid then .entry ⟨g, d1, d2, text, ext⟩
      else .err

def parseBlocks : List Str → Option (List ObservationEntry)
  | [] => some []
  | b :: bs =>
    match parseBlock b with
    | .skip => parseBlocks bs
    | .err => none
    | .entry e => (parseBlocks bs).map (e :: ·)

/-- `ObservationLog._parse(raw)`.  `none` models the call raising
`ValueError`; `some entries` is its normal return. -/
def parseObservations (raw : Str) : Option (List ObservationEntry) :=
  parseBlocks (splitBlocks (pyStrip raw))

/-! ## The observation journal file (`ObservationLog`) -/

/-- `read_raw`: empty string for a missing file, content otherwise. -/
def readRaw : Option Str → Str
  | none => []
  | some s => s

/-- `_ensure_file`: touch the file when missing. -/
def ensureFile : Option Str → Option Str
  | none => some []
  | some s => some s

/-- `ObservationLog.append`: re-read the file, prepend a blank-line
separator when the existing content is non-blank, write the serialized
entry followed by one newline. -/
def ObservationLog.append (file : Option Str) (e : ObservationEntry) : Option Str :=
  let file := ensureFile file
  let raw := readRaw file
  let sep := if (pyStrip raw).isEmpty then [] else "\n\n".data
  some (raw ++ sep ++ e.serialize ++ ['\n'])

/-- A sequence of `ObservationLog.append` calls, first entry first. -/
def ObservationLog.appendAll (file : Option Str) (es : List ObservationEntry) : Option Str :=
  es.foldl ObservationLog.append file

/-- `ObservationLog.overwrite`: the serialized entries joined by one blank
line plus a trailing newline, or an empty file for an empty list. -/
def ObservationLog.overwrite (file : Option Str) (es : List ObservationEntry) : Option Str :=
  let _ := ensureFile file
  some (if es.isEmpty then []
        else joinSep "\n\n".data (es.map ObservationEntry.serialize) ++ ['\n'])

/-- `ObservationLog.entries`. -/
def ObservationLog.entries (file : Option Str) : Option (List ObservationEntry) :=
  parseObservations (readRaw file)

/-- `ObservationLog.token_count_approx`: `len(self.read_raw()) // 4` —
Python `len` on `str`, i.e. the number of codepoints. -/
def ObservationLog.tokenCountApprox (file : Option Str) : Nat :=
  (readRaw file).length / 4

/-! ## UTF-8 byte length (for comparing against the spec's token formula) -/

/-- Number of bytes of the UTF-8 encoding of one codepoint. -/
def utf8SizeOf (c : Char) : Nat :=
  if c.toNat < 0x80 then 1
  else if c.toNat < 0x800 then 2
  else if c.toNat < 0x10000 then 3
  else 4

/-- Number of bytes of the UTF-8 encoding of a string. -/
def utf8Length (s : Str) : Nat := (s.map utf8SizeOf).sum

/-- Modelled from the spec: `token_count_approx` as §4.2 describes it,
`⌊len(raw_bytes_utf8) / 4⌋` — the UTF-8 byte count divided by four.  Kept
separate from `ObservationLog.tokenCountApprox` (the code's version) so the
two can be compared. -/
def specTokenCountUtf8 (file : Option Str) : Nat :=
  utf8Length (readRaw file) / 4

/-! ## Sanitizer (`security/sanitizer.py`) -/

structure SanitizeResult where
  text : Str
  was_truncated : Bool := false
  injection_count : Nat := 0
deriving DecidableEq, Repr

def DEFAULT_MAX_ENTRY_CHARS : Nat := 2000

/-- The literal `" … [TRUNCATED]"` appended on truncation (14 codepoints). -/
def TRUNCATION_SUFFIX : Str := " … [TRUNCATED]".data

/-- `Sanitizer._strip_injections`: the loop of `re.subn` substitutions over
the 11 compiled patterns is the `redact` parameter (it returns the rewritten
text and the total substitution count); the final `.strip()` is explicit. -/
def stripInjections (redact : Str → Str × Nat) (content : Str) : Str × Nat :=
  let (c, n) := redact content
  (pyStrip c, n)

/-- `Sanitizer.sanitize_for_observation`. -/
def sanitizeForObservation (redact : Str → Str × Nat) (maxEntryChars : Nat)
    (text : Str) (maxChars : Option Nat) : SanitizeResult :=
  let budget := maxChars.getD maxEntryChars
  let (cleaned, count) := stripInjections redact text
  if budget < cleaned.length then
    { text := pyRstrip (cleaned.take budget) ++ TRUNCATION_SUFFIX,
      was_truncated := true, injection_count := count }
  else
    { text := cleaned, was_truncated := false, injection_count := count }

/-! ## Audit chain (`security/audit.py`)

The JSONL file is modelled as the list of entries it encodes
(`all_entries` of an absent file is the empty list; blank lines never
arise from `append`).  `hashlib.sha256(...).hexdigest()` is the abstract
`hashContent` parameter, and `datetime.now(...).isoformat()` is the `now`
parameter. -/

structure AuditEntry where
  timestamp : Str
  source : Str
  char_delta : Int
  sha256 : Str
deriving DecidableEq, Repr

abbrev AuditFile := Option (List AuditEntry)

/-- `AuditLog.append`: `_ensure_file`, build the entry, write one line. -/
def AuditLog.append (hashContent : Str → Str) (now : Str) (file : AuditFile)
    (source : Str) (previousContent newContent : Str) : AuditFile × AuditEntry :=
  let e : AuditEntry :=
    { timestamp := now, source := source,
      char_delta := (newContent.length : Int) - (previousContent.length : Int),
      sha256 := hashContent newContent }
  (some (file.getD [] ++ [e]), e)

/-- `AuditLog.all_entries` (empty for a missing file). -/
def AuditLog.allEntries (file : AuditFile) : List AuditEntry := file.getD []

/-- `AuditLog.last_entry`. -/
def AuditLog.lastEntry (file : AuditFile) : Option AuditEntry :=
  (AuditLog.allEntries file).getLast?

/-- `AuditLog.last_hash`. -/
def AuditLog.lastHash (file : AuditFile) : Option Str :=
  (AuditLog.lastEntry file).map AuditEntry.sha256

/-- `AuditLog.verify`. -/
def AuditLog.verify (hashContent : Str → Str) (file : AuditFile) (currentContent : Str) : Bool :=
  match AuditLog.lastHash file with
  | none => true
  | some h => hashContent currentContent == h

/-! ## Observer (`memory/observer.py`) -/

/-- A `{role, content}` session message. -/
structure Msg where
  role : Str
  content : Str
deriving DecidableEq, Repr

/-- The marker loop shared by `Observer._parse_and_write` and
`ContextManager.observe`: if the text begins with a priority glyph, strip
it and the separator characters `" :-"`, then strip whitespace. -/
def stripPriorityMarker (line : Str) : Option Char × Str :=
  match line with
  | c :: rest =>
    if PRIORITY_MARKERS.contains c then (some c, pyStrip (pyLstripSet " :-".data rest))
    else (none, line)
  | [] => (none, line)

/-- Python `str.splitlines` restricted to `\n` boundaries (the other line
boundary characters Python also accepts play no role in these claims). -/
def splitLinesAux : Str → Str → List Str
  | [], [] => []
  | [], acc => [acc.reverse]
  | '\n' :: rest, acc => acc.reverse :: splitLinesAux rest []
  | c :: rest, acc => splitLinesAux rest (c :: acc)

def splitLines (s : Str) : List Str := splitLinesAux s []

/-- The per-line body of `Observer._parse_and_write`: skip blank lines and
lines with no leading glyph; sanitize the text; upgrade the priority to
🔴 when the sanitizer truncated. -/
def parseResponseLine (redact : Str → Str × Nat) (maxEntryChars : Nat)
    (today eventDate : Date) (line : Str) : Option ObservationEntry :=
  let line := pyStrip line
  if line.isEmpty then none
  else
    match stripPriorityMarker line with
    | (none, _) => none
    | (some m, text) =>
      let r := sanitizeForObservation redact maxEntryChars text none
      some { priority := if r.was_truncated then '🔴' else m,
             observed_on := today, event_date := eventDate,
             text := r.text, external := false }

/-- `Observer._parse_and_write`: each accepted line is appended to the
journal in order; the produced entries are also returned. -/
def Observer.parseAndWrite (redact : Str → Str × Nat) (maxEntryChars : Nat)
    (file : Option Str) (response : Str) (today eventDate : Date) :
    Option Str × List ObservationEntry :=
  (splitLines response).foldl
    (fun (st : Option Str × List ObservationEntry) line =>
      match parseResponseLine redact maxEntryChars today eventDate line with
      | none => st
      | some e => (ObservationLog.append st.1 e, st.2 ++ [e]))
    (file, [])

/-- `Observer.compress`: empty message list short-circuits without calling
the LLM; otherwise the adapter's response text (`response`, the value
`llm.call` returned for the formatted transcript) is parsed and written. -/
def Observer.compress (redact : Str → Str × Nat) (maxEntryChars : Nat)
    (file : Option Str) (messages : List Msg) (response : Str)
    (today : Date) (eventDate : Option Date) : Option Str × List ObservationEntry :=
  if messages.isEmpty then (file, [])
  else Observer.parseAndWrite redact maxEntryChars file response today (eventDate.getD today)

/-! ## Reflector (`memory/reflector.py`) -/

/-- `Reflector.reflect`; `response` is what `llm.call` returned for the raw
journal.  The outer `Option` models a `ValueError` escaping from `_parse`;
the Boolean is the return value and the `Option Str` the journal file
afterwards. -/
def Reflector.reflect (file : Option Str) (response : Str) : Option (Bool × Option Str) :=
  let raw := readRaw file
  if (pyStrip raw).isEmpty then some (false, file)
  else
    match parseObservations raw with
    | none => none
    | some originalEntries =>
      if originalEntries.isEmpty then some (false, file)
      else
        match parseObservations response with
        | none => none
        | some newEntries =>
          if newEntries.isEmpty then some (false, file)
          else some (true, ObservationLog.overwrite file newEntries)

/-! ## Context builder (`session/context_builder.py`) -/

def BLOCK1_HEADER : Str := "## Observation Log\n\n".data

/-- `ContextBuilder.build_prefix` (named `buildBlock1` here): empty when the
journal has no entries, otherwise the Block 1 header followed by the
rendered entries joined by blank lines.  `none` models a `ValueError`
escaping from the journal parser. -/
def ContextBuilder.buildBlock1 (file : Option Str) (today : Date) : Option Str :=
  match ObservationLog.entries file with
  | none => none
  | some es =>
    if es.isEmpty then some []
    else some (BLOCK1_HEADER ++ joinSep "\n\n".data (es.map (fun e => e.render today)))

/-! ## Context manager (`context_manager.py`) -/

structure CMConfig where
  observer_threshold : Nat := 30000
  reflector_threshold : Nat := 40000
deriving Repr

/-- The state a `ContextManager` owns: the journal file, the audit file and
the in-memory session buffer. -/
structure CMState where
  journal : Option Str
  audit : AuditFile
  session : List Msg
deriving Repr

/-- `ContextManager._session_token_count`. -/
def sessionTokenCount (messages : List Msg) : Nat :=
  (messages.map (fun m => m.content.length)).sum / 4

/-- `ContextManager.observe`: parse the optional leading glyph (default 🟢),
sanitize, build the entry (🔴 when truncated), append to the journal, then
record a `manual` audit entry hashing the new raw content.  The
`event_date` string argument arrives here already parsed by
`date.fromisoformat`. -/
def ContextManager.observe (hashContent : Str → Str) (redact : Str → Str × Nat)
    (maxEntryChars : Nat) (today : Date) (now : Str) (st : CMState)
    (text : Str) (eventDate : Option Date) : CMState × ObservationEntry :=
  let (priority, text) :=
    match stripPriorityMarker text with
    | (some m, t) => (m, t)
    | (none, _) => ('🟢', text)
  let ed := eventDate.getD today
  let r := sanitizeForObservation redact maxEntryChars text none
  let entry : ObservationEntry :=
    { priority := if r.was_truncated then '🔴' else priority,
      observed_on := today, event_date := ed, text := r.text, external := false }
  let prev := readRaw st.journal
  let journal1 := ObservationLog.append st.journal entry
  let audit1 :=
    (AuditLog.append hashContent now st.audit "manual".data prev (readRaw journal1)).1
  ({ st with journal := journal1, audit := audit1 }, entry)

/-- `ContextManager.verify_integrity`. -/
def ContextManager.verifyIntegrity (hashContent : Str → Str) (st : CMState) : Bool :=
  AuditLog.verify hashContent st.audit (readRaw st.journal)

/-- `ContextManager._maybe_reflect`; `reflResponse` is the LLM response the
Reflector would receive.  `none` models an escaping exception. -/
def ContextManager.maybeReflect (hashContent : Str → Str) (cfg : CMConfig)
    (now : Str) (reflResponse : Str) (st : CMState) : Option CMState :=
  if cfg.reflector_threshold ≤ ObservationLog.tokenCountApprox st.journal then
    let prev := readRaw st.journal
    match Reflector.reflect st.journal reflResponse with
    | none => none
    | some (rewrote, journal1) =>
      if rewrote then
        some { st with
               journal := journal1,
               audit := (AuditLog.append hashContent now st.audit "reflector".data
                           prev (readRaw journal1)).1 }
      else some { st with journal := journal1 }
  else some st

/-- `ContextManager._run_observer`: snapshot, compress, clear the session,
record an `observer` audit entry when the raw content changed, then maybe
reflect. -/
def ContextManager.runObserver (hashContent : Str → Str) (redact : Str → Str × Nat)
    (maxEntryChars : Nat) (cfg : CMConfig) (today : Date) (now : Str)
    (obsResponse reflResponse : Str) (st : CMState) : Option CMState :=
  let messages := st.session
  let prev := readRaw st.journal
  let journal1 := (Observer.compress redact maxEntryChars st.journal messages obsResponse today none).1
  let newRaw := readRaw journal1
  let audit1 :=
    if newRaw = prev then st.audit
    else (AuditLog.append hashContent now st.audit "observer".data prev newRaw).1
  ContextManager.maybeReflect hashContent cfg now reflResponse
    { st with journal := journal1, audit := audit1, session := [] }

/-- `ContextManager.add_message`: push onto the session buffer and run the
observer when the approximate session token count reaches the threshold. -/
def ContextManager.addMessage (hashContent : Str → Str) (redact : Str → Str × Nat)
    (maxEntryChars : Nat) (cfg : CMConfig) (today : Date) (now : Str)
    (obsResponse reflResponse : Str) (st : CMState) (role content : Str) :
    Option CMState :=
  let st := { st with session := st.session ++ [⟨role, content⟩] }
  if cfg.observer_threshold ≤ sessionTokenCount st.session then
    ContextManager.runObserver hashContent redact maxEntryChars cfg today now
      obsResponse reflResponse st
  else some st

/-! # Helper lemmas on the string primitives -/

theorem dropWhile_length_le (p : Char → Bool) (l : Str) :
    (l.dropWhile p).length ≤ l.length :=
  (List.dropWhile_suffix p).length_le

theorem pyRstrip_length_le (l : Str) : (pyRstrip l).length ≤ l.length := by
  have h := dropWhile_length_le pyIsSpace l.reverse
  simpa [pyRstrip] using h

theorem pyStrip_length_le (l : Str) : (pyStrip l).length ≤ l.length :=
  le_trans (pyRstrip_length_le _) (dropWhile_length_le _ _)

theorem pyLstrip_cons_of_not_space (c : Char) (l : Str) (h : pyIsSpace c = false) :
    pyLstrip (c :: l) = c :: l := by
  simp [pyLstrip, List.dropWhile_cons, h]

theorem dropWhile_eq_self_head (p : Char → Bool) (l : Str) (h : l.dropWhile p = l)
    (c : Char) (hc : l.head? = some c) : p c = false := by
  cases l with
  | nil => cases hc
  | cons a t =>
    have ha : a = c := by injection hc
    subst ha
    by_contra hp
    have hp2 : p a = true := by simpa using hp
    rw [List.dropWhile_cons, if_pos hp2] at h
    have h2 := dropWhile_length_le p t
    have hlen := congrArg List.length h
    simp at hlen
    omega

theorem pyRstrip_eq_self_of_getLast (l : Str) (c : Char) (hl : l.getLast? = some c)
    (h : pyIsSpace c = false) : pyRstrip l = l := by
  have hrev : l.reverse.head? = some c := by rw [List.head?_reverse]; exact hl
  cases hr : l.reverse with
  | nil => rw [hr] at hrev; cases hrev
  | cons a t =>
    rw [hr] at hrev
    have ha : a = c := by injection hrev
    subst ha
    have h1 : pyRstrip l = ((a :: t).dropWhile pyIsSpace).reverse := by rw [pyRstrip, hr]
    rw [h1, List.dropWhile_cons, if_neg (by simp [h])]
    rw [← hr, List.reverse_reverse]

theorem pyStrip_eq_self (l : Str)
    (hh : ∀ c, l.head? = some c → pyIsSpace c = false)
    (hl : ∀ c, l.getLast? = some c → pyIsSpace c = false) :
    pyStrip l = l := by
  cases l with
  | nil => rfl
  | cons a t =>
    have h1 : pyLstrip (a :: t) = a :: t := pyLstrip_cons_of_not_space _ _ (hh a rfl)
    rw [pyStrip, h1]
    cases hgl : (a :: t).getLast? with
    | none => simp at hgl
    | some c => exact pyRstrip_eq_self_of_getLast _ _ hgl (hl c hgl)

theorem pyStrip_eq_self_lstrip (l : Str) (hs : pyStrip l = l) : pyLstrip l = l := by
  have h1 : (pyStrip l).length ≤ (pyLstrip l).length := pyRstrip_length_le _
  have h2 : (pyLstrip l).length ≤ l.length := dropWhile_length_le _ _
  have h3 : (pyStrip l).length = l.length := by rw [hs]
  have h4 : (pyLstrip l).length = l.length := by omega
  exact (List.dropWhile_suffix pyIsSpace).eq_of_length h4

theorem pyStrip_eq_self_head (l : Str) (hs : pyStrip l = l)
    (c : Char) (hc : l.head? = some c) : pyIsSpace c = false :=
  dropWhile_eq_self_head pyIsSpace l (pyStrip_eq_self_lstrip l hs) c hc

theorem pyStrip_eq_self_rstrip (l : Str) (hs : pyStrip l = l) : pyRstrip l = l := by
  have h1 := pyStrip_eq_self_lstrip l hs
  rw [pyStrip, h1] at hs
  exact hs

theorem pyStrip_eq_self_getLast (l : Str) (hs : pyStrip l = l)
    (c : Char) (hc : l.getLast? = some c) : pyIsSpace c = false := by
  have h1 : pyRstrip l = l := pyStrip_eq_self_rstrip l hs
  have h2 : l.reverse.dropWhile pyIsSpace = l.reverse := by
    have := congrArg List.reverse h1
    simpa [pyRstrip] using this
  exact dropWhile_eq_self_head pyIsSpace l.reverse h2 c
    (by rw [List.head?_reverse]; exact hc)

theorem pyStrip_cons_ne_nil (c : Char) (t : Str) (h : pyIsSpace c = false) :
    (pyStrip (c :: t)).isEmpty = false := by
  rw [pyStrip, pyLstrip_cons_of_not_space _ _ h]
  rcases he : pyRstrip (c :: t) with _ | ⟨a, r⟩
  · exfalso
    have h2 : (c :: t).reverse.dropWhile pyIsSpace = [] := by
      have := congrArg List.reverse he
      simpa [pyRstrip] using this
    have h3 := List.dropWhile_eq_nil_iff.1 h2 c (by simp)
    rw [h] at h3
    cases h3
  · rfl

/-! # Helper lemmas on digits and dates -/

theorem parseDigit_digitChar (k : Nat) (h : k < 10) :
    parseDigit (Nat.digitChar k) = some k := by
  interval_cases k <;> decide

theorem digitChar_not_space (k : Nat) (h : k < 10) :
    pyIsSpace (Nat.digitChar k) = false := by
  interval_cases k <;> decide

theorem digitChar_ne_nl (k : Nat) (h : k < 10) : ¬ Nat.digitChar k = '\n' := by
  interval_cases k <;> decide

/-! # Claim theorems: audit verification, sanitizer, token counting, totality -/

/-- C4: `AuditLog.verify(x)` returns true iff either no audit history exists
(the audit file is absent or has no entries) or the digest of `x` equals the
`sha256` field of the last audit entry; otherwise it returns false. -/
theorem verify_iff_no_history_or_last_hash (hashContent : Str → Str)
    (file : AuditFile) (x : Str) :
    AuditLog.verify hashContent file x = true ↔
      ((file = none ∨ file = some []) ∨
        ∃ e, AuditLog.lastEntry file = some e ∧ hashContent x = e.sha256) := by
  cases file with
  | none =>
    simp [AuditLog.verify, AuditLog.lastHash, AuditLog.lastEntry, AuditLog.allEntries]
  | some entries =>
    cases h : entries.getLast? with
    | none =>
      have he : entries = [] := by simpa using h
      subst he
      simp [AuditLog.verify, AuditLog.lastHash, AuditLog.lastEntry, AuditLog.allEntries]
    | some e =>
      have hne : entries ≠ [] := by
        intro hnil
        rw [hnil] at h
        cases h
      simp [AuditLog.verify, AuditLog.lastHash, AuditLog.lastEntry, AuditLog.allEntries,
        h, hne, beq_iff_eq]

/-- C7: `sanitize_for_observation` redacts then strips; on budget overflow it
truncates to the budget, right-strips and appends `" … [TRUNCATED]"`, so the
result length is at most `budget + len(" … [TRUNCATED]")` and a truncated
result ends with `"[TRUNCATED]"`.  Quantified over every redaction pass. -/
theorem sanitize_budget_and_marker (redact : Str → Str × Nat) (maxEntryChars : Nat)
    (text : Str) (maxChars : Option Nat) :
    (sanitizeForObservation redact maxEntryChars text maxChars).text.length ≤
        maxChars.getD maxEntryChars + TRUNCATION_SUFFIX.length ∧
      ((sanitizeForObservation redact maxEntryChars text maxChars).was_truncated = true →
        "[TRUNCATED]".data <:+ (sanitizeForObservation redact maxEntryChars text maxChars).text) := by
  rcases hsi : stripInjections redact text with ⟨cleaned, count⟩
  by_cases hb : maxChars.getD maxEntryChars < cleaned.length
  · have htext : (sanitizeForObservation redact maxEntryChars text maxChars).text =
        pyRstrip (cleaned.take (maxChars.getD maxEntryChars)) ++ TRUNCATION_SUFFIX := by
      simp [sanitizeForObservation, hsi, hb]
    have htr : (sanitizeForObservation redact maxEntryChars text maxChars).was_truncated = true := by
      simp [sanitizeForObservation, hsi, hb]
    constructor
    · rw [htext]
      have h1 : (pyRstrip (cleaned.take (maxChars.getD maxEntryChars))).length ≤
          maxChars.getD maxEntryChars :=
        le_trans (pyRstrip_length_le _) (List.length_take_le _ _)
      simp only [List.length_append]
      omega
    · intro _
      rw [htext]
      have hdec : TRUNCATION_SUFFIX = " … ".data ++ "[TRUNCATED]".data := by decide
      rw [hdec, ← List.append_assoc]
      exact List.suffix_append _ _
  · have htext : (sanitizeForObservation redact maxEntryChars text maxChars).text = cleaned := by
      simp [sanitizeForObservation, hsi, hb]
    have htr : (sanitizeForObservation redact maxEntryChars text maxChars).was_truncated = false := by
      simp [sanitizeForObservation, hsi, hb]
    constructor
    · rw [htext]; omega
    · intro hcontra
      rw [htr] at hcontra
      cases hcontra

/-- Witness for C7 at a concrete input that truncates. -/
theorem sanitize_budget_and_marker_witness :
    (sanitizeForObservation (fun s => (s, 0)) 5 "ABCDEFGH".data none).text.length ≤
        5 + TRUNCATION_SUFFIX.length ∧
      "[TRUNCATED]".data <:+ (sanitizeForObservation (fun s => (s, 0)) 5 "ABCDEFGH".data none).text :=
  ⟨(sanitize_budget_and_marker (fun s => (s, 0)) 5 "ABCDEFGH".data none).1,
   (sanitize_budget_and_marker (fun s => (s, 0)) 5 "ABCDEFGH".data none).2 (by decide)⟩

theorem one_le_utf8SizeOf (c : Char) : 1 ≤ utf8SizeOf c := by
  unfold utf8SizeOf
  split_ifs <;> norm_num

theorem length_le_utf8Length (s : Str) : s.length ≤ utf8Length s := by
  induction s with
  | nil => simp [utf8Length]
  | cons c t ih =>
    have h := one_le_utf8SizeOf c
    simp only [utf8Length, List.map_cons, List.sum_cons, List.length_cons] at *
    omega

theorem utf8Length_ascii (s : Str) (h : ∀ c ∈ s, c.toNat < 128) :
    utf8Length s = s.length := by
  induction s with
  | nil => rfl
  | cons c t ih =>
    have hc : utf8SizeOf c = 1 := by
      unfold utf8SizeOf
      rw [if_pos (h c (by simp))]
    have ht := ih (fun d hd => h d (by simp [hd]))
    simp only [utf8Length, List.map_cons, List.sum_cons, List.length_cons] at *
    omega

/-- C8 counterexample: on the journal content `"🔴🔴🔴🔴"` the code computes
`⌊4 codepoints / 4⌋ = 1` while `⌊16 UTF-8 bytes / 4⌋ = 4`, so
`token_count_approx` is not the floor of the UTF-8 byte length over four. -/
theorem tokenCount_codepoints_ne_utf8 :
    ObservationLog.tokenCountApprox (some "🔴🔴🔴🔴".data) = 1 ∧
      specTokenCountUtf8 (some "🔴🔴🔴🔴".data) = 4 ∧
      ObservationLog.tokenCountApprox (some "🔴🔴🔴🔴".data) ≠
        specTokenCountUtf8 (some "🔴🔴🔴🔴".data) := by
  decide

/-- C8 amended: `token_count_approx` is the floor of the codepoint count of
the raw content divided by 4; this is at most the spec's UTF-8-byte figure
and coincides with it exactly on ASCII-only content. -/
theorem tokenCount_amended (file : Option Str) :
    ObservationLog.tokenCountApprox file = (readRaw file).length / 4 ∧
      ObservationLog.tokenCountApprox file ≤ specTokenCountUtf8 file ∧
      ((∀ c ∈ readRaw file, c.toNat < 128) →
        ObservationLog.tokenCountApprox file = specTokenCountUtf8 file) := by
  refine ⟨rfl, ?_, ?_⟩
  · exact Nat.div_le_div_right (length_le_utf8Length _)
  · intro h
    unfold ObservationLog.tokenCountApprox specTokenCountUtf8
    rw [utf8Length_ascii _ h]

/-- Witness for C8's amended statement on ASCII content. -/
theorem tokenCount_amended_witness :
    ObservationLog.tokenCountApprox (some "abcdefgh".data) =
      specTokenCountUtf8 (some "abcdefgh".data) :=
  (tokenCount_amended (some "abcdefgh".data)).2.2 (by decide)

/-- C10: on a missing journal file, `read_raw` returns the empty string,
`entries` the empty list, `token_count_approx` zero, and the context
builder's Block 1 the empty string — no error in any of them. -/
theorem missing_file_reads_total (today : Date) :
    readRaw none = [] ∧ ObservationLog.entries none = some [] ∧
      ObservationLog.tokenCountApprox none = 0 ∧
      ContextBuilder.buildBlock1 none today = some [] :=
  ⟨rfl, rfl, rfl, rfl⟩

/-! # Claim theorems: truncation upgrade, date invariant -/

theorem stripPriorityMarker_snd (line : Str) :
    (stripPriorityMarker line).1 = none → (stripPriorityMarker line).2 = line := by
  rcases line with _ | ⟨c, rest⟩
  · intro _; rfl
  · intro h
    by_cases hc : c ∈ PRIORITY_MARKERS
    · exfalso
      have h2 : (stripPriorityMarker (c :: rest)).1 = some c := by
        simp [stripPriorityMarker, hc]
      rw [h2] at h
      cases h
    · simp [stripPriorityMarker, hc]

/-- C6: on both entry-building write paths (`ContextManager.observe` and
`Observer._parse_and_write`), a truncating sanitizer run forces the stored
priority to 🔴, whatever glyph was submitted or parsed. -/
theorem truncation_forces_critical (hashContent : Str → Str) (redact : Str → Str × Nat)
    (maxEntryChars : Nat) (today : Date) (now : Str) :
    (∀ (st : CMState) (text : Str) (eventDate : Option Date),
      (sanitizeForObservation redact maxEntryChars
          (stripPriorityMarker text).2 none).was_truncated = true →
      (ContextManager.observe hashContent redact maxEntryChars today now st
          text eventDate).2.priority = '🔴') ∧
    (∀ (today2 eventDate2 : Date) (line : Str) (e : ObservationEntry),
      parseResponseLine redact maxEntryChars today2 eventDate2 line = some e →
      (sanitizeForObservation redact maxEntryChars
          (stripPriorityMarker (pyStrip line)).2 none).was_truncated = true →
      e.priority = '🔴') := by
  constructor
  · intro st text eventDate htr
    rcases hm : stripPriorityMarker text with ⟨pOpt, t⟩
    rw [hm] at htr
    cases pOpt with
    | none =>
      have h1 : (stripPriorityMarker text).2 = text :=
        stripPriorityMarker_snd text (by rw [hm])
      have ht : t = text := by rw [hm] at h1; exact h1
      rw [ht] at htr
      simp [ContextManager.observe, hm, htr]
    | some m =>
      simp [ContextManager.observe, hm, htr]
  · intro today2 eventDate2 line e h htr
    simp only [parseResponseLine] at h
    split at h
    · cases h
    · rcases hm : stripPriorityMarker (pyStrip line) with ⟨pOpt, t⟩
      rw [hm] at h htr
      cases pOpt with
      | none => simp at h
      | some m =>
        simp only at h
        injection h with h2
        rw [← h2]
        simp [htr]

/-- Witness for C6 at a concrete truncating input on both paths. -/
theorem truncation_forces_critical_witness :
    (ContextManager.observe (fun s => s) (fun s => (s, 0)) 0 ⟨2026, 2, 23⟩ []
        ⟨none, none, []⟩ "🟢 hi".data none).2.priority = '🔴' ∧
    ∃ e, parseResponseLine (fun s => (s, 0)) 0 ⟨2026, 2, 23⟩ ⟨2026, 2, 23⟩ "🟢 hi".data = some e ∧
      e.priority = '🔴' := by
  constructor
  · exact (truncation_forces_critical (fun s => s) (fun s => (s, 0)) 0 ⟨2026, 2, 23⟩ []).1
      ⟨none, none, []⟩ "🟢 hi".data none (by decide)
  · exact ⟨_, rfl, (truncation_forces_critical (fun s => s) (fun s => (s, 0)) 0
      ⟨2026, 2, 23⟩ []).2 ⟨2026, 2, 23⟩ ⟨2026, 2, 23⟩ "🟢 hi".data _ rfl (by decide)⟩

theorem parseResponseLine_fields (redact : Str → Str × Nat) (mec : Nat)
    (today ed : Date) (line : Str) (e : ObservationEntry)
    (h : parseResponseLine redact mec today ed line = some e) :
    e.observed_on = today ∧ e.event_date = ed := by
  simp only [parseResponseLine] at h
  split at h
  · cases h
  · rcases hm : stripPriorityMarker (pyStrip line) with ⟨pOpt, t⟩
    rw [hm] at h
    cases pOpt with
    | none => simp at h
    | some m =>
      simp only at h
      injection h with h2
      rw [← h2]
      exact ⟨rfl, rfl⟩

theorem parseAndWrite_mem (redact : Str → Str × Nat) (mec : Nat) (today ed : Date) :
    ∀ (lines : List Str) (init : Option Str × List ObservationEntry) (e : ObservationEntry),
      e ∈ (lines.foldl (fun st line =>
          match parseResponseLine redact mec today ed line with
          | none => st
          | some e2 => (ObservationLog.append st.1 e2, st.2 ++ [e2])) init).2 →
      e ∈ init.2 ∨ ∃ line, parseResponseLine redact mec today ed line = some e := by
  intro lines
  induction lines with
  | nil => intro init e h; exact Or.inl h
  | cons l ls ih =>
    intro init e h
    rw [List.foldl_cons] at h
    rcases hpl : parseResponseLine redact mec today ed l with _ | e2
    · rw [hpl] at h
      exact ih init e h
    · rw [hpl] at h
      rcases ih _ e h with hin | hex
      · rcases List.mem_append.1 hin with h1 | h2
        · exact Or.inl h1
        · have he : e = e2 := by simpa using h2
          exact Or.inr ⟨l, by rw [hpl, he]⟩
      · exact Or.inr hex

theorem date_le_refl (d : Date) : Date.le d d = true := by
  simp [Date.le]

/-- C9 counterexample: `observe` on 2024-01-01 with the caller-supplied
event date 2024-06-01 stores an entry whose `event_date` is after its
`observed_on` — the code never validates the supplied date. -/
theorem observe_future_event_date :
    Date.le (ContextManager.observe (fun s => s) (fun s => (s, 0)) 2000 ⟨2024, 1, 1⟩ []
        ⟨none, none, []⟩ "hi".data (some ⟨2024, 6, 1⟩)).2.event_date
      (ContextManager.observe (fun s => s) (fun s => (s, 0)) 2000 ⟨2024, 1, 1⟩ []
        ⟨none, none, []⟩ "hi".data (some ⟨2024, 6, 1⟩)).2.observed_on = false := by
  decide

/-- C9 amended: whenever the caller-supplied event date is not after the
write date (in particular whenever it is omitted), every entry written by
`ContextManager.observe` or by `Observer.compress` satisfies
`event_date ≤ observed_on`. -/
theorem event_date_le_observed_on_amended (hashContent : Str → Str)
    (redact : Str → Str × Nat) (mec : Nat) (today : Date) (now : Str)
    (eventDate : Option Date)
    (hed : ∀ d, eventDate = some d → Date.le d today = true) :
    (∀ (st : CMState) (text : Str),
      Date.le (ContextManager.observe hashContent redact mec today now st
          text eventDate).2.event_date
        (ContextManager.observe hashContent redact mec today now st
          text eventDate).2.observed_on = true) ∧
    (∀ (file : Option Str) (messages : List Msg) (response : Str) (e : ObservationEntry),
      e ∈ (Observer.compress redact mec file messages response today eventDate).2 →
      Date.le e.event_date e.observed_on = true) := by
  have hgetd : Date.le (eventDate.getD today) today = true := by
    cases eventDate with
    | none => exact date_le_refl today
    | some d => exact hed d rfl
  constructor
  · intro st text
    rcases hm : stripPriorityMarker text with ⟨pOpt, t⟩
    cases pOpt with
    | none => simpa [ContextManager.observe, hm] using hgetd
    | some m => simpa [ContextManager.observe, hm] using hgetd
  · intro file messages response e hmem
    unfold Observer.compress at hmem
    split at hmem
    · cases hmem
    · rcases parseAndWrite_mem redact mec today (eventDate.getD today)
          (splitLines response) (file, []) e hmem with hin | ⟨line, hline⟩
      · cases hin
      · rcases parseResponseLine_fields redact mec today (eventDate.getD today)
            line e hline with ⟨ho, he⟩
        rw [ho, he]
        exact hgetd

/-- Witness for C9's amended statement at a concrete past event date. -/
theorem event_date_le_observed_on_witness :
    Date.le (ContextManager.observe (fun s => s) (fun s => (s, 0)) 2000 ⟨2024, 1, 1⟩ []
        ⟨none, none, []⟩ "hi".data (some ⟨2023, 12, 1⟩)).2.event_date
      (ContextManager.observe (fun s => s) (fun s => (s, 0)) 2000 ⟨2024, 1, 1⟩ []
        ⟨none, none, []⟩ "hi".data (some ⟨2023, 12, 1⟩)).2.observed_on = true :=
  (event_date_le_observed_on_amended (fun s => s) (fun s => (s, 0)) 2000 ⟨2024, 1, 1⟩ []
    (some ⟨2023, 12, 1⟩)
    (by intro d hd; injection hd with h; subst h; decide)).1 ⟨none, none, []⟩ "hi".data

/-! # Claim theorems: audit hash invariant, reflector gates -/

theorem verify_append_self (hashContent : Str → Str) (now : Str) (file : AuditFile)
    (source prevContent newContent : Str) :
    AuditLog.verify hashContent
      (AuditLog.append hashContent now file source prevContent newContent).1
      newContent = true := by
  simp [AuditLog.verify, AuditLog.lastHash, AuditLog.lastEntry, AuditLog.allEntries,
    AuditLog.append]

theorem reflect_cases (file : Option Str) (response : Str) (b : Bool) (j : Option Str)
    (h : Reflector.reflect file response = some (b, j)) :
    (b = false ∧ j = file) ∨
    (b = true ∧ ∃ es, es ≠ [] ∧ parseObservations response = some es ∧
      j = ObservationLog.overwrite file es) := by
  simp only [Reflector.reflect] at h
  by_cases he : (pyStrip (readRaw file)).isEmpty
  · rw [if_pos he] at h
    injection h with h2
    injection h2 with h3 h4
    exact Or.inl ⟨h3.symm, h4.symm⟩
  · rw [if_neg he] at h
    rcases hp : parseObservations (readRaw file) with _ | orig
    · rw [hp] at h
      cases h
    · rw [hp] at h
      simp only at h
      by_cases ho : orig.isEmpty
      · rw [if_pos ho] at h
        injection h with h2
        injection h2 with h3 h4
        exact Or.inl ⟨h3.symm, h4.symm⟩
      · rw [if_neg ho] at h
        rcases hr : parseObservations response with _ | newE
        · rw [hr] at h
          cases h
        · rw [hr] at h
          simp only at h
          by_cases hn : newE.isEmpty
          · rw [if_pos hn] at h
            injection h with h2
            injection h2 with h3 h4
            exact Or.inl ⟨h3.symm, h4.symm⟩
          · rw [if_neg hn] at h
            injection h with h2
            injection h2 with h3 h4
            refine Or.inr ⟨h3.symm, newE, ?_, rfl, h4.symm⟩
            intro hnil
            rw [hnil] at hn
            exact hn rfl

theorem reflect_false_unchanged (file : Option Str) (response : Str) (j : Option Str)
    (h : Reflector.reflect file response = some (false, j)) : j = file := by
  rcases reflect_cases file response false j h with ⟨_, hj⟩ | ⟨hb, _⟩
  · exact hj
  · cases hb

theorem reflect_true_overwrites (file : Option Str) (response : Str) (j : Option Str)
    (h : Reflector.reflect file response = some (true, j)) :
    ∃ es, es ≠ [] ∧ parseObservations response = some es ∧
      j = ObservationLog.overwrite file es := by
  rcases reflect_cases file response true j h with ⟨hb, _⟩ | ⟨_, hes⟩
  · cases hb
  · exact hes

theorem maybeReflect_state (hashContent : Str → Str) (cfg : CMConfig)
    (now reflResponse : Str) (st st2 : CMState)
    (h : ContextManager.maybeReflect hashContent cfg now reflResponse st = some st2) :
    st2 = st ∨ AuditLog.verify hashContent st2.audit (readRaw st2.journal) = true := by
  unfold ContextManager.maybeReflect at h
  split at h
  · rcases hr : Reflector.reflect st.journal reflResponse with _ | ⟨rewrote, j1⟩
    · rw [hr] at h
      cases h
    · rw [hr] at h
      simp only at h
      cases rewrote with
      | false =>
        have hj : j1 = st.journal := reflect_false_unchanged _ _ _ hr
        simp only [if_neg Bool.false_ne_true] at h
        injection h with h2
        left
        rw [← h2, hj]
      | true =>
        right
        rw [if_pos rfl] at h
        injection h with h2
        rw [← h2]
        exact verify_append_self _ _ _ _ _ _
  · injection h with h2
    exact Or.inl h2.symm

theorem runObserver_verify (hashContent : Str → Str) (redact : Str → Str × Nat)
    (mec : Nat) (cfg : CMConfig) (today : Date) (now obsResponse reflResponse : Str)
    (st st2 : CMState)
    (h : ContextManager.runObserver hashContent redact mec cfg today now
        obsResponse reflResponse st = some st2)
    (hch : readRaw st2.journal ≠ readRaw st.journal) :
    AuditLog.verify hashContent st2.audit (readRaw st2.journal) = true := by
  unfold ContextManager.runObserver at h
  rcases maybeReflect_state _ _ _ _ _ _ h with heq | hv
  · rw [heq]
    rw [heq] at hch
    simp only [CMState.mk.injEq] at *
    by_cases hnp : readRaw (Observer.compress redact mec st.journal st.session obsResponse
        today none).1 = readRaw st.journal
    · exfalso
      exact hch (by simpa using hnp)
    · simp only [if_neg hnp]
      exact verify_append_self _ _ _ _ _ _
  · exact hv

/-- C1: after every mutation of the observation journal through the public
API — `observe` always, and `add_message` whenever the flush it triggers
changes the journal's raw content — the last recorded audit hash is the
hash of the journal's current raw content, i.e. `audit.verify(read_raw())`
returns true.  Quantified over the hash function, the sanitizer's redaction
pass and both LLM responses. -/
theorem audit_verifies_after_public_mutation (hashContent : Str → Str)
    (redact : Str → Str × Nat) (mec : Nat) (cfg : CMConfig) (today : Date)
    (now obsResponse reflResponse : Str) :
    (∀ (st : CMState) (text : Str) (eventDate : Option Date),
      AuditLog.verify hashContent
        (ContextManager.observe hashContent redact mec today now st text eventDate).1.audit
        (readRaw (ContextManager.observe hashContent redact mec today now st
            text eventDate).1.journal) = true) ∧
    (∀ (st : CMState) (role content : Str) (st2 : CMState),
      ContextManager.addMessage hashContent redact mec cfg today now obsResponse
          reflResponse st role content = some st2 →
      readRaw st2.journal ≠ readRaw st.journal →
      AuditLog.verify hashContent st2.audit (readRaw st2.journal) = true) := by
  constructor
  · intro st text eventDate
    rcases hm : stripPriorityMarker text with ⟨pOpt, t⟩
    cases pOpt with
    | none =>
      simp only [ContextManager.observe, hm]
      exact verify_append_self _ _ _ _ _ _
    | some m =>
      simp only [ContextManager.observe, hm]
      exact verify_append_self _ _ _ _ _ _
  · intro st role content st2 h hch
    simp only [ContextManager.addMessage] at h
    by_cases ht : cfg.observer_threshold ≤
        sessionTokenCount (st.session ++ [⟨role, content⟩])
    · rw [if_pos ht] at h
      exact runObserver_verify _ _ _ _ _ _ _ _ _ _ h hch
    · rw [if_neg ht] at h
      injection h with h2
      rw [← h2] at hch
      exact absurd rfl hch

/-- Witness for C1: a concrete `observe` call, and a concrete `add_message`
call that crosses the observer threshold and changes the journal. -/
theorem audit_verifies_after_public_mutation_witness :
    AuditLog.verify (fun s => s)
      ((ContextManager.observe (fun s => s) (fun s => (s, 0)) 2000 ⟨2026, 2, 23⟩ []
          ⟨none, none, []⟩ "hi".data none).1.audit)
      (readRaw (ContextManager.observe (fun s => s) (fun s => (s, 0)) 2000 ⟨2026, 2, 23⟩ []
          ⟨none, none, []⟩ "hi".data none).1.journal) = true ∧
    ∃ st2, ContextManager.addMessage (fun s => s) (fun s => (s, 0)) 2000 ⟨0, 999999⟩
        ⟨2026, 2, 23⟩ [] "🟢 ok".data "".data ⟨none, none, []⟩ "user".data "hi".data =
          some st2 ∧
      AuditLog.verify (fun s => s) st2.audit (readRaw st2.journal) = true := by
  constructor
  · exact (audit_verifies_after_public_mutation (fun s => s) (fun s => (s, 0)) 2000
      ⟨0, 999999⟩ ⟨2026, 2, 23⟩ [] "🟢 ok".data "".data).1 ⟨none, none, []⟩ "hi".data none
  · refine ⟨_, rfl, ?_⟩
    exact (audit_verifies_after_public_mutation (fun s => s) (fun s => (s, 0)) 2000
      ⟨0, 999999⟩ ⟨2026, 2, 23⟩ [] "🟢 ok".data "".data).2 ⟨none, none, []⟩
      "user".data "hi".data _ rfl (by decide)

/-- C5: `Reflector.reflect` returns false with the journal untouched when
the raw text strips to empty, when the journal parses to zero entries, or
when the LLM response parses to zero entries (and `_maybe_reflect` then
leaves the whole state — journal and audit file — unchanged); it returns
true, overwriting with the parsed response entries, only when the response
parses to at least one entry. -/
theorem reflect_noop_gates (hashContent : Str → Str) (cfg : CMConfig) (now : Str)
    (file : Option Str) (response : Str) :
    ((pyStrip (readRaw file)).isEmpty = true →
      Reflector.reflect file response = some (false, file)) ∧
    (parseObservations (readRaw file) = some [] →
      Reflector.reflect file response = some (false, file)) ∧
    (∀ es, parseObservations (readRaw file) = some es →
      parseObservations response = some [] →
      Reflector.reflect file response = some (false, file)) ∧
    (∀ b j, Reflector.reflect file response = some (b, j) → b = false → j = file) ∧
    (∀ b j, Reflector.reflect file response = some (b, j) → b = true →
      ∃ es, es ≠ [] ∧ parseObservations response = some es ∧
        j = ObservationLog.overwrite file es) ∧
    (∀ st : CMState, st.journal = file →
      Reflector.reflect file response = some (false, file) →
      ContextManager.maybeReflect hashContent cfg now response st = some st) := by
  refine ⟨?_, ?_, ?_, ?_, ?_, ?_⟩
  · intro he
    unfold Reflector.reflect
    rw [if_pos he]
  · intro hpe
    unfold Reflector.reflect
    by_cases he : (pyStrip (readRaw file)).isEmpty
    · rw [if_pos he]
    · rw [if_neg he, hpe]
      simp
  · intro es hpes hre
    unfold Reflector.reflect
    by_cases he : (pyStrip (readRaw file)).isEmpty
    · rw [if_pos he]
    · rw [if_neg he, hpes]
      simp only
      by_cases hese : es.isEmpty
      · rw [if_pos hese]
      · rw [if_neg hese, hre]
        simp
  · intro b j h hb
    rw [hb] at h
    exact reflect_false_unchanged _ _ _ h
  · intro b j h hb
    rw [hb] at h
    exact reflect_true_overwrites _ _ _ h
  · intro st hj hrf
    unfold ContextManager.maybeReflect
    split
    · rw [hj, hrf]
      simp only [if_neg Bool.false_ne_true]
      rw [← hj]
    · rfl

/-- Witness for C5's gates on concrete journals and responses: an empty
journal, an unparseable journal with an unparseable response, a seeded
journal with a garbled response (through `_maybe_reflect` as well), and a
successful consolidation. -/
theorem reflect_noop_gates_witness :
    Reflector.reflect none "resp".data = some (false, none) ∧
    Reflector.reflect (some "noise".data) "also noise".data =
      some (false, some "noise".data) ∧
    Reflector.reflect
        (some "🔴 observed_on:2026-02-23 event_date:2026-02-22\nUpload failed\n".data)
        "This is not a valid observation log".data =
      some (false,
        some "🔴 observed_on:2026-02-23 event_date:2026-02-22\nUpload failed\n".data) ∧
    ContextManager.maybeReflect (fun s => s) ⟨0, 0⟩ []
        "This is not a valid observation log".data
        ⟨some "🔴 observed_on:2026-02-23 event_date:2026-02-22\nUpload failed\n".data,
          none, []⟩ =
      some ⟨some "🔴 observed_on:2026-02-23 event_date:2026-02-22\nUpload failed\n".data,
        none, []⟩ ∧
    ∃ p, Reflector.reflect
        (some "🔴 observed_on:2026-02-23 event_date:2026-02-22\nUpload failed\n".data)
        "🟢 observed_on:2026-02-23 event_date:2026-02-23\nok".data = some p ∧
      (p.1 = true → ∃ es, es ≠ [] ∧
        parseObservations "🟢 observed_on:2026-02-23 event_date:2026-02-23\nok".data =
          some es ∧
        p.2 = ObservationLog.overwrite
          (some "🔴 observed_on:2026-02-23 event_date:2026-02-22\nUpload failed\n".data)
          es) := by
  refine ⟨?_, ?_, ?_, ?_, ?_⟩
  · exact (reflect_noop_gates (fun s => s) ⟨0, 0⟩ [] none "resp".data).1 (by decide)
  · exact (reflect_noop_gates (fun s => s) ⟨0, 0⟩ [] (some "noise".data)
      "also noise".data).2.1 (by decide)
  · exact (reflect_noop_gates (fun s => s) ⟨0, 0⟩ []
      (some "🔴 observed_on:2026-02-23 event_date:2026-02-22\nUpload failed\n".data)
      "This is not a valid observation log".data).2.2.1
      [⟨'🔴', ⟨2026, 2, 23⟩, ⟨2026, 2, 22⟩, "Upload failed".data, false⟩]
      (by decide) (by decide)
  · exact (reflect_noop_gates (fun s => s) ⟨0, 0⟩ []
      (some "🔴 observed_on:2026-02-23 event_date:2026-02-22\nUpload failed\n".data)
      "This is not a valid observation log".data).2.2.2.2.2
      ⟨some "🔴 observed_on:2026-02-23 event_date:2026-02-22\nUpload failed\n".data,
        none, []⟩ rfl
      ((reflect_noop_gates (fun s => s) ⟨0, 0⟩ []
        (some "🔴 observed_on:2026-02-23 event_date:2026-02-22\nUpload failed\n".data)
        "This is not a valid observation log".data).2.2.1
        [⟨'🔴', ⟨2026, 2, 23⟩, ⟨2026, 2, 22⟩, "Upload failed".data, false⟩]
        (by decide) (by decide))
  · refine ⟨_, rfl, fun hb => ?_⟩
    exact (reflect_noop_gates (fun s => s) ⟨0, 0⟩ []
      (some "🔴 observed_on:2026-02-23 event_date:2026-02-22\nUpload failed\n".data)
      "🟢 observed_on:2026-02-23 event_date:2026-02-23\nok".data).2.2.2.2.1 _ _ rfl hb

/-! # Claim theorems: on-disk layout of the journal -/

theorem markers_not_space (c : Char) (h : c ∈ PRIORITY_MARKERS) :
    pyIsSpace c = false := by
  simp only [PRIORITY_MARKERS, List.mem_cons, List.mem_singleton, List.not_mem_nil,
    or_false] at h
  rcases h with h | h | h <;> subst h <;> decide

theorem joinSep_cons_cons (sep a b : Str) (u : List Str) :
    joinSep sep (a :: b :: u) = a ++ sep ++ joinSep sep (b :: u) := rfl

theorem joinSep_concat (sep : Str) (M : List Str) (x : Str) (h : M ≠ []) :
    joinSep sep (M ++ [x]) = joinSep sep M ++ sep ++ x := by
  induction M with
  | nil => cases h rfl
  | cons a t ih =>
    cases t with
    | nil => simp [joinSep]
    | cons b u =>
      have ih2 := ih (by simp)
      rw [List.cons_append] at ih2
      rw [List.cons_append, List.cons_append, joinSep_cons_cons, ih2,
        joinSep_cons_cons]
      simp [List.append_assoc]

theorem joinSep_head_cons (sep : Str) (x : Str) (xs : List Str) :
    ∃ r, joinSep sep (x :: xs) = x ++ r := by
  cases xs with
  | nil => exact ⟨[], by simp [joinSep]⟩
  | cons b t => exact ⟨sep ++ joinSep sep (b :: t), by simp [joinSep]⟩

theorem appendAll_concat (file : Option Str) (es : List ObservationEntry)
    (e : ObservationEntry) :
    ObservationLog.appendAll file (es ++ [e]) =
      ObservationLog.append (ObservationLog.appendAll file es) e := by
  simp [ObservationLog.appendAll, List.foldl_append]

/-- C3 counterexample: two consecutive `append` calls on a fresh journal
leave three LF bytes between the first entry's text and the second entry's
header (the old trailing LF plus the written `"\n\n"` separator), not the
claimed exactly-two. -/
theorem append_separator_three_newlines :
    ObservationLog.appendAll none
        [⟨'🔴', ⟨2026, 2, 23⟩, ⟨2026, 2, 22⟩, "Upload failed".data, false⟩,
         ⟨'🟢', ⟨2026, 2, 23⟩, ⟨2026, 2, 23⟩, "Run completed".data, false⟩] =
      some (ObservationEntry.serialize
          ⟨'🔴', ⟨2026, 2, 23⟩, ⟨2026, 2, 22⟩, "Upload failed".data, false⟩ ++
        "\n\n\n".data ++
        ObservationEntry.serialize
          ⟨'🟢', ⟨2026, 2, 23⟩, ⟨2026, 2, 23⟩, "Run completed".data, false⟩ ++ ['\n']) ∧
    ObservationLog.appendAll none
        [⟨'🔴', ⟨2026, 2, 23⟩, ⟨2026, 2, 22⟩, "Upload failed".data, false⟩,
         ⟨'🟢', ⟨2026, 2, 23⟩, ⟨2026, 2, 23⟩, "Run completed".data, false⟩] ≠
      some (ObservationEntry.serialize
          ⟨'🔴', ⟨2026, 2, 23⟩, ⟨2026, 2, 22⟩, "Upload failed".data, false⟩ ++
        "\n\n".data ++
        ObservationEntry.serialize
          ⟨'🟢', ⟨2026, 2, 23⟩, ⟨2026, 2, 23⟩, "Run completed".data, false⟩ ++ ['\n']) := by
  decide

/-- C3 amended: starting from a missing file, a sequence of appends yields
the serialized entries separated by exactly three LF bytes with a final LF,
while a single `overwrite` yields them separated by exactly two LF bytes
with a final LF; a zero-entry overwrite yields an empty file. -/
theorem journal_layout_amended (es : List ObservationEntry)
    (hp : ∀ e ∈ es, e.priority ∈ PRIORITY_MARKERS) (hne : es ≠ []) :
    ObservationLog.appendAll none es =
      some (joinSep "\n\n\n".data (es.map ObservationEntry.serialize) ++ ['\n']) ∧
    ObservationLog.overwrite none es =
      some (joinSep "\n\n".data (es.map ObservationEntry.serialize) ++ ['\n']) ∧
    ObservationLog.overwrite none ([] : List ObservationEntry) = some [] := by
  refine ⟨?_, ?_, rfl⟩
  · induction es using List.reverseRecOn with
    | nil => cases hne rfl
    | append_singleton L e ih =>
      rcases L with _ | ⟨f, R⟩
      · simp [ObservationLog.appendAll, ObservationLog.append, ensureFile, readRaw, joinSep]
        rfl
      · have hLne : (f :: R : List ObservationEntry) ≠ [] := by simp
        have ihL := ih (fun e2 he2 => hp e2 (by
          simp only [List.cons_append, List.mem_cons, List.mem_append,
            List.mem_singleton] at he2 ⊢
          tauto)) hLne
        rw [appendAll_concat, ihL]
        obtain ⟨r, hr⟩ := joinSep_head_cons "\n\n\n".data
          (ObservationEntry.serialize f) (R.map ObservationEntry.serialize)
        have hhead : joinSep "\n\n\n".data ((f :: R).map ObservationEntry.serialize) ++ ['\n'] =
            f.priority :: ((" observed_on:".data ++ fmtDate f.observed_on ++
              " event_date:".data ++ fmtDate f.event_date ++
              (if f.external then " [EXT]".data else []) ++ '\n' :: f.text) ++ r ++ ['\n']) := by
          simp only [List.map_cons] at hr ⊢
          rw [hr]
          simp [ObservationEntry.serialize, ObservationEntry.serializeHeader,
            List.append_assoc]
        have hstrip : (pyStrip (joinSep "\n\n\n".data
            ((f :: R).map ObservationEntry.serialize) ++ ['\n'])).isEmpty = false := by
          rw [hhead]
          exact pyStrip_cons_ne_nil _ _ (markers_not_space _ (hp f (by simp)))
        have happ : ObservationLog.append
            (some (joinSep "\n\n\n".data ((f :: R).map ObservationEntry.serialize) ++ ['\n'])) e =
            some ((joinSep "\n\n\n".data ((f :: R).map ObservationEntry.serialize) ++ ['\n']) ++
              "\n\n".data ++ ObservationEntry.serialize e ++ ['\n']) := by
          simp only [ObservationLog.append, ensureFile, readRaw, hstrip]
          simp
        rw [happ]
        have hjoin : joinSep "\n\n\n".data (((f :: R) ++ [e]).map ObservationEntry.serialize) =
            joinSep "\n\n\n".data ((f :: R).map ObservationEntry.serialize) ++
              "\n\n\n".data ++ ObservationEntry.serialize e := by
          rw [List.map_append]
          exact joinSep_concat _ _ _ (by simp)
        rw [hjoin]
        have hsep : (['\n'] : Str) ++ "\n\n".data = "\n\n\n".data := by decide
        rw [← hsep]
        simp [List.append_assoc]
  · have hee : es.isEmpty = false := by
      cases es with
      | nil => cases hne rfl
      | cons a t => rfl
    simp [ObservationLog.overwrite, hee]

/-- Witness for C3's amended layout at two concrete entries. -/
theorem journal_layout_amended_witness :
    ObservationLog.appendAll none
        [⟨'🔴', ⟨2026, 2, 23⟩, ⟨2026, 2, 22⟩, "Upload failed".data, false⟩,
         ⟨'🟢', ⟨2026, 2, 23⟩, ⟨2026, 2, 23⟩, "Run completed".data, false⟩] =
      some (joinSep "\n\n\n".data
        ([⟨'🔴', ⟨2026, 2, 23⟩, ⟨2026, 2, 22⟩, "Upload failed".data, false⟩,
          ⟨'🟢', ⟨2026, 2, 23⟩, ⟨2026, 2, 23⟩, "Run completed".data,
            false⟩].map ObservationEntry.serialize) ++ ['\n']) ∧
    ObservationLog.overwrite none
        [⟨'🔴', ⟨2026, 2, 23⟩, ⟨2026, 2, 22⟩, "Upload failed".data, false⟩,
         ⟨'🟢', ⟨2026, 2, 23⟩, ⟨2026, 2, 23⟩, "Run completed".data, false⟩] =
      some (joinSep "\n\n".data
        ([⟨'🔴', ⟨2026, 2, 23⟩, ⟨2026, 2, 22⟩, "Upload failed".data, false⟩,
          ⟨'🟢', ⟨2026, 2, 23⟩, ⟨2026, 2, 23⟩, "Run completed".data,
            false⟩].map ObservationEntry.serialize) ++ ['\n']) :=
  ⟨(journal_layout_amended _ (by decide) (by decide)).1,
   (journal_layout_amended _ (by decide) (by decide)).2.1⟩

/-! # Round trip of the serializer through the journal parser -/

theorem litChars_append (p rest : Str) : litChars p (p ++ rest) = some rest := by
  induction p with
  | nil => rfl
  | cons c cs ih => simp [litChars, ih]

theorem reqSpaces_space_cons (c : Char) (t : Str) (h : pyIsSpace c = false) :
    reqSpaces (' ' :: c :: t) = some (c :: t) := by
  have hsp : pyIsSpace ' ' = true := by decide
  simp [reqSpaces, hsp, List.dropWhile_cons, h]

theorem parse2_pad2 (n : Nat) (rest : Str) (h : n ≤ 99) :
    parse2 (pad2 n ++ rest) = some (n, rest) := by
  have d1 := parseDigit_digitChar (n / 10 % 10) (Nat.mod_lt _ (by norm_num))
  have d2 := parseDigit_digitChar (n % 10) (Nat.mod_lt _ (by norm_num))
  have harith : 10 * (n / 10 % 10) + n % 10 = n := by omega
  show parse2 (Nat.digitChar (n / 10 % 10) :: Nat.digitChar (n % 10) :: rest) = some (n, rest)
  rw [parse2, d1, d2]
  show some (10 * (n / 10 % 10) + n % 10, rest) = some (n, rest)
  rw [harith]

theorem parse4_pad4 (n : Nat) (rest : Str) (h : n ≤ 9999) :
    parse4 (pad4 n ++ rest) = some (n, rest) := by
  have d1 := parseDigit_digitChar (n / 1000 % 10) (Nat.mod_lt _ (by norm_num))
  have d2 := parseDigit_digitChar (n / 100 % 10) (Nat.mod_lt _ (by norm_num))
  have d3 := parseDigit_digitChar (n / 10 % 10) (Nat.mod_lt _ (by norm_num))
  have d4 := parseDigit_digitChar (n % 10) (Nat.mod_lt _ (by norm_num))
  have harith : 1000 * (n / 1000 % 10) + 100 * (n / 100 % 10) + 10 * (n / 10 % 10) + n % 10 = n := by
    omega
  show parse4 (Nat.digitChar (n / 1000 % 10) :: Nat.digitChar (n / 100 % 10) ::
    Nat.digitChar (n / 10 % 10) :: Nat.digitChar (n % 10) :: rest) = some (n, rest)
  rw [parse4, d1, d2, d3, d4]
  show some (1000 * (n / 1000 % 10) + 100 * (n / 100 % 10) + 10 * (n / 10 % 10) + n % 10, rest) =
    some (n, rest)
  rw [harith]

theorem daysInMonth_le_31 (y m : Nat) : daysInMonth y m ≤ 31 := by
  unfold daysInMonth
  split_ifs <;> norm_num

theorem date_valid_bounds (d : Date) (h : d.valid = true) :
    1 ≤ d.year ∧ d.year ≤ 9999 ∧ 1 ≤ d.month ∧ d.month ≤ 12 ∧ 1 ≤ d.day ∧ d.day ≤ 31 := by
  have h31 := daysInMonth_le_31 d.year d.month
  simp only [Date.valid, Bool.and_eq_true, decide_eq_true_eq] at h
  omega

theorem parseDateChars_fmtDate (d : Date) (rest : Str) (h : d.valid = true) :
    parseDateChars (fmtDate d ++ rest) = some (d, rest) := by
  obtain ⟨_, hy, _, hm, _, hd⟩ := date_valid_bounds d h
  have e1 : fmtDate d ++ rest =
      pad4 d.year ++ ('-' :: (pad2 d.month ++ ('-' :: (pad2 d.day ++ rest)))) := by
    simp [fmtDate, List.append_assoc]
  rw [e1, parseDateChars, parse4_pad4 _ _ hy]
  show (match parse2 (pad2 d.month ++ ('-' :: (pad2 d.day ++ rest))) with
    | none => none
    | some (m, l3) =>
      match l3 with
      | '-' :: l4 =>
        match parse2 l4 with
        | none => none
        | some (dd, l5) => some ((⟨d.year, m, dd⟩ : Date), l5)
      | _ => none) = some (d, rest)
  rw [parse2_pad2 _ _ (by omega)]
  show (match parse2 (pad2 d.day ++ rest) with
    | none => none
    | some (dd, l5) => some ((⟨d.year, d.month, dd⟩ : Date), l5)) = some (d, rest)
  rw [parse2_pad2 _ _ (by omega)]

theorem not_nl_mem_pad4 (n : Nat) : '\n' ∉ pad4 n := by
  intro h
  simp only [pad4, List.mem_cons, List.not_mem_nil, or_false] at h
  rcases h with h | h | h | h <;>
    exact digitChar_ne_nl _ (Nat.mod_lt _ (by norm_num)) h.symm

theorem not_nl_mem_pad2 (n : Nat) : '\n' ∉ pad2 n := by
  intro h
  simp only [pad2, List.mem_cons, List.not_mem_nil, or_false] at h
  rcases h with h | h <;>
    exact digitChar_ne_nl _ (Nat.mod_lt _ (by norm_num)) h.symm

theorem not_nl_mem_fmtDate (d : Date) : '\n' ∉ fmtDate d := by
  intro h
  simp only [fmtDate, List.mem_append, List.mem_cons] at h
  rcases h with (h | h | h) | h | h
  · exact not_nl_mem_pad4 _ h
  · cases h
  · exact not_nl_mem_pad2 _ h
  · cases h
  · exact not_nl_mem_pad2 _ h

theorem not_nl_mem_serializeHeader (p : Char) (d1 d2 : Date) (text : Str) (ext : Bool)
    (hp : p ∈ PRIORITY_MARKERS) :
    '\n' ∉ ObservationEntry.serializeHeader ⟨p, d1, d2, text, ext⟩ := by
  intro h
  unfold ObservationEntry.serializeHeader at h
  dsimp only at h
  rcases List.mem_append.1 h with h | h
  · rcases List.mem_append.1 h with h | h
    · rcases List.mem_append.1 h with h | h
      · rcases List.mem_append.1 h with h | h
        · rcases List.mem_cons.1 h with h | h
          · rw [← h] at hp
            revert hp
            decide
          · revert h
            decide
        · exact not_nl_mem_fmtDate _ h
      · revert h
        decide
    · exact not_nl_mem_fmtDate _ h
  · rcases ext with _ | _
    · simp at h
    · revert h
      decide

theorem pyRstrip_append (l m : Str) (hm : pyRstrip m = m) (hne : m ≠ []) :
    pyRstrip (l ++ m) = l ++ m := by
  have hdm : m.reverse.dropWhile pyIsSpace = m.reverse := by
    have := congrArg List.reverse hm
    simpa [pyRstrip] using this
  cases hr : m.reverse with
  | nil =>
    exfalso
    exact hne (by simpa using congrArg List.reverse hr)
  | cons c t =>
    have hc : pyIsSpace c = false :=
      dropWhile_eq_self_head pyIsSpace m.reverse hdm c (by rw [hr]; rfl)
    unfold pyRstrip
    rw [List.reverse_append, hr, List.cons_append, List.dropWhile_cons, hc]
    simp only [Bool.false_eq_true, if_false]
    rw [← List.cons_append, ← hr, ← List.reverse_append]
    exact List.reverse_reverse _

theorem pyRstrip_dash_pad2 (n : Nat) : pyRstrip ('-' :: pad2 n) = '-' :: pad2 n := by
  have h1 : pyIsSpace (Nat.digitChar (n % 10)) = false :=
    digitChar_not_space _ (Nat.mod_lt _ (by norm_num))
  unfold pyRstrip pad2
  simp [List.dropWhile_cons, h1]

theorem pyRstrip_ext : pyRstrip " [EXT]".data = " [EXT]".data := by decide

theorem serializeHeader_rstrip (p : Char) (d1 d2 : Date) (text : Str) (ext : Bool) :
    pyRstrip (ObservationEntry.serializeHeader ⟨p, d1, d2, text, ext⟩) =
      ObservationEntry.serializeHeader ⟨p, d1, d2, text, ext⟩ := by
  unfold ObservationEntry.serializeHeader
  rcases ext with _ | _
  · simp only [Bool.false_eq_true, if_false, List.append_nil]
    have e1 : (p :: " observed_on:".data ++ fmtDate d1 ++ " event_date:".data ++ fmtDate d2 :
        Str) =
        (p :: " observed_on:".data ++ fmtDate d1 ++ " event_date:".data ++
          (pad4 d2.year ++ ('-' :: pad2 d2.month))) ++ ('-' :: pad2 d2.day) := by
      simp [fmtDate, List.append_assoc]
    rw [e1]
    exact pyRstrip_append _ _ (pyRstrip_dash_pad2 _) (by simp)
  · simp only [if_true]
    exact pyRstrip_append _ _ pyRstrip_ext (by decide)

theorem contains_of_mem_markers (p : Char) (hp : p ∈ PRIORITY_MARKERS) :
    PRIORITY_MARKERS.contains p = true := by
  rcases List.mem_cons.1 hp with h | h2
  · subst h; rfl
  rcases List.mem_cons.1 h2 with h | h3
  · subst h; rfl
  rcases List.mem_cons.1 h3 with h | h4
  · subst h; rfl
  · cases h4

theorem matchHeaderDates_serialized (d1 d2 : Date) (sfx : Str)
    (h1 : d1.valid = true) (h2 : d2.valid = true) :
    matchHeaderDates (" observed_on:".data ++ (fmtDate d1 ++
        (" event_date:".data ++ (fmtDate d2 ++ sfx)))) = some (d1, d2, sfx) := by
  have s1 : reqSpaces (" observed_on:".data ++ (fmtDate d1 ++
      (" event_date:".data ++ (fmtDate d2 ++ sfx)))) =
      some ("observed_on:".data ++ (fmtDate d1 ++
        (" event_date:".data ++ (fmtDate d2 ++ sfx)))) :=
    reqSpaces_space_cons 'o' _ (by decide)
  have s2 : litChars "observed_on:".data ("observed_on:".data ++ (fmtDate d1 ++
      (" event_date:".data ++ (fmtDate d2 ++ sfx)))) =
      some (fmtDate d1 ++ (" event_date:".data ++ (fmtDate d2 ++ sfx))) :=
    litChars_append _ _
  have s3 : parseDateChars (fmtDate d1 ++ (" event_date:".data ++ (fmtDate d2 ++ sfx))) =
      some (d1, " event_date:".data ++ (fmtDate d2 ++ sfx)) :=
    parseDateChars_fmtDate d1 _ h1
  have s4 : reqSpaces (" event_date:".data ++ (fmtDate d2 ++ sfx)) =
      some ("event_date:".data ++ (fmtDate d2 ++ sfx)) :=
    reqSpaces_space_cons 'e' _ (by decide)
  have s5 : litChars "event_date:".data ("event_date:".data ++ (fmtDate d2 ++ sfx)) =
      some (fmtDate d2 ++ sfx) :=
    litChars_append _ _
  have s6 : parseDateChars (fmtDate d2 ++ sfx) = some (d2, sfx) :=
    parseDateChars_fmtDate d2 _ h2
  rw [matchHeaderDates, s1]
  show (match litChars "observed_on:".data ("observed_on:".data ++ (fmtDate d1 ++
      (" event_date:".data ++ (fmtDate d2 ++ sfx)))) with
    | none => none
    | some r2 =>
      match parseDateChars r2 with
      | none => none
      | some (d1, r3) =>
        match reqSpaces r3 with
        | none => none
        | some r4 =>
          match litChars "event_date:".data r4 with
          | none => none
          | some r5 =>
            match parseDateChars r5 with
            | none => none
            | some (d2, r6) => some (d1, d2, r6)) = some (d1, d2, sfx)
  rw [s2]
  show (match parseDateChars (fmtDate d1 ++ (" event_date:".data ++ (fmtDate d2 ++ sfx))) with
    | none => none
    | some (d1, r3) =>
      match reqSpaces r3 with
      | none => none
      | some r4 =>
        match litChars "event_date:".data r4 with
        | none => none
        | some r5 =>
          match parseDateChars r5 with
          | none => none
          | some (d2, r6) => some (d1, d2, r6)) = some (d1, d2, sfx)
  rw [s3]
  show (match reqSpaces (" event_date:".data ++ (fmtDate d2 ++ sfx)) with
    | none => none
    | some r4 =>
      match litChars "event_date:".data r4 with
      | none => none
      | some r5 =>
        match parseDateChars r5 with
        | none => none
        | some (d2a, r6) => some (d1, d2a, r6)) = some (d1, d2, sfx)
  rw [s4]
  show (match litChars "event_date:".data ("event_date:".data ++ (fmtDate d2 ++ sfx)) with
    | none => none
    | some r5 =>
      match parseDateChars r5 with
      | none => none
      | some (d2a, r6) => some (d1, d2a, r6)) = some (d1, d2, sfx)
  rw [s5]
  show (match parseDateChars (fmtDate d2 ++ sfx) with
    | none => none
    | some (d2a, r6) => some (d1, d2a, r6)) = some (d1, d2, sfx)
  rw [s6]

theorem matchExt_matchRelative_sfx (ext : Bool) :
    matchExt (matchRelative (if ext then " [EXT]".data else [])) = ext := by
  rcases ext with _ | _ <;> decide

theorem matchHeader_serializeHeader (p : Char) (d1 d2 : Date) (text : Str) (ext : Bool)
    (hp : p ∈ PRIORITY_MARKERS) (h1 : d1.valid = true) (h2 : d2.valid = true) :
    matchHeader (ObservationEntry.serializeHeader ⟨p, d1, d2, text, ext⟩) =
      some (p, d1, d2, ext) := by
  have hc := contains_of_mem_markers p hp
  have hshape : ObservationEntry.serializeHeader ⟨p, d1, d2, text, ext⟩ =
      p :: (" observed_on:".data ++ (fmtDate d1 ++ (" event_date:".data ++
        (fmtDate d2 ++ (if ext then " [EXT]".data else []))))) := by
    simp [ObservationEntry.serializeHeader, List.append_assoc]
  rw [hshape]
  show (if PRIORITY_MARKERS.contains p = true then
      match matchHeaderDates (" observed_on:".data ++ (fmtDate d1 ++
          (" event_date:".data ++ (fmtDate d2 ++ (if ext then " [EXT]".data else []))))) with
      | none => none
      | some (d1, d2, r6) => some (p, d1, d2, matchExt (matchRelative r6))
    else none) = some (p, d1, d2, ext)
  rw [if_pos hc, matchHeaderDates_serialized d1 d2 _ h1 h2]
  show some (p, d1, d2, matchExt (matchRelative (if ext then " [EXT]".data else []))) =
    some (p, d1, d2, ext)
  rw [matchExt_matchRelative_sfx]

theorem splitFirstNl_no_nl (h : Str) (hn : '\n' ∉ h) : splitFirstNl h = (h, none) := by
  induction h with
  | nil => rfl
  | cons c cs ih =>
    have hc : ¬(c = '\n') := fun he => hn (by rw [he]; exact List.mem_cons_self _ _)
    have ih2 := ih (fun hm => hn (List.mem_cons_of_mem _ hm))
    simp [splitFirstNl, hc, ih2]

theorem splitFirstNl_append (h t : Str) (hn : '\n' ∉ h) :
    splitFirstNl (h ++ '\n' :: t) = (h, some t) := by
  induction h with
  | nil => simp [splitFirstNl]
  | cons c cs ih =>
    have hc : ¬(c = '\n') := fun he => hn (by rw [he]; exact List.mem_cons_self _ _)
    have ih2 := ih (fun hm => hn (List.mem_cons_of_mem _ hm))
    simp [splitFirstNl, hc, ih2]

theorem hasDoubleNl_append_left (a b : Str) (h : '\n' ∉ a) :
    hasDoubleNl (a ++ b) = hasDoubleNl b := by
  induction a with
  | nil => rfl
  | cons c cs ih =>
    have hc : ¬(c = '\n') := fun he => h (by rw [he]; exact List.mem_cons_self _ _)
    have ih2 := ih (fun hm => h (List.mem_cons_of_mem _ hm))
    simp [hasDoubleNl, hc, ih2]

theorem hasDoubleNl_of_not_mem (a : Str) (h : '\n' ∉ a) : hasDoubleNl a = false := by
  have h2 := hasDoubleNl_append_left a [] h
  simpa using h2

theorem splitBlocksGo_no_double (l : Str) : ∀ acc, hasDoubleNl l = false →
    splitBlocksGo l acc = [acc.reverse ++ l] := by
  induction l with
  | nil =>
    intro acc h
    simp [splitBlocksGo]
  | cons c rest ih =>
    intro acc h
    have hr : hasDoubleNl rest = false := by
      simp only [hasDoubleNl, Bool.or_eq_false_iff] at h
      exact h.2
    have hnd : ¬(c = '\n' ∧ rest.head? = some '\n') := by
      intro ⟨hc, hh⟩
      simp only [hasDoubleNl, hc, hh, Bool.or_eq_false_iff] at h
      simp at h
    rw [splitBlocksGo.eq_def]
    split
    · rename_i heq
      cases heq
    · rename_i rest2 heq
      injection heq with hc1 heq2
      exact absurd ⟨hc1, by rw [heq2]; rfl⟩ hnd
    · rename_i c2 rest3 hno heq
      injection heq with hce hre
      subst hce
      subst hre
      rw [ih _ hr]
      simp

theorem splitBlocks_no_double (l : Str) (h : hasDoubleNl l = false) :
    splitBlocks l = [l] := by
  unfold splitBlocks
  rw [splitBlocksGo_no_double l [] h]
  rfl

theorem serializeHeader_cons (p : Char) (d1 d2 : Date) (text : Str) (ext : Bool) :
    ObservationEntry.serializeHeader ⟨p, d1, d2, text, ext⟩ =
      p :: (" observed_on:".data ++ (fmtDate d1 ++ (" event_date:".data ++
        (fmtDate d2 ++ (if ext then " [EXT]".data else []))))) := by
  simp [ObservationEntry.serializeHeader, List.append_assoc]

theorem serialize_cons (p : Char) (d1 d2 : Date) (text : Str) (ext : Bool) :
    ObservationEntry.serialize ⟨p, d1, d2, text, ext⟩ =
      p :: (" observed_on:".data ++ (fmtDate d1 ++ (" event_date:".data ++
        (fmtDate d2 ++ ((if ext then " [EXT]".data else []) ++ '\n' :: text))))) := by
  simp [ObservationEntry.serialize, ObservationEntry.serializeHeader, List.append_assoc]

theorem serialize_lstrip (p : Char) (d1 d2 : Date) (text : Str) (ext : Bool)
    (hp : p ∈ PRIORITY_MARKERS) :
    pyLstrip (ObservationEntry.serialize ⟨p, d1, d2, text, ext⟩) =
      ObservationEntry.serialize ⟨p, d1, d2, text, ext⟩ := by
  rw [serialize_cons]
  exact pyLstrip_cons_of_not_space _ _ (markers_not_space _ hp)

theorem serialize_append_decomp (p : Char) (d1 d2 : Date) (text : Str) (ext : Bool) :
    ObservationEntry.serialize ⟨p, d1, d2, text, ext⟩ =
      (ObservationEntry.serializeHeader ⟨p, d1, d2, text, ext⟩ ++ ['\n']) ++ text := by
  simp [ObservationEntry.serialize, List.append_assoc]

theorem serialize_strip_self (p : Char) (d1 d2 : Date) (text : Str) (ext : Bool)
    (hp : p ∈ PRIORITY_MARKERS) (ht : pyStrip text = text) (hne : text ≠ []) :
    pyStrip (ObservationEntry.serialize ⟨p, d1, d2, text, ext⟩) =
      ObservationEntry.serialize ⟨p, d1, d2, text, ext⟩ := by
  unfold pyStrip
  rw [serialize_lstrip p d1 d2 text ext hp, serialize_append_decomp]
  exact pyRstrip_append _ _ (pyStrip_eq_self_rstrip text ht) hne

theorem pyRstrip_append_space (l : Str) (c : Char) (hc : pyIsSpace c = true) :
    pyRstrip (l ++ [c]) = pyRstrip l := by
  unfold pyRstrip
  rw [List.reverse_append]
  simp [List.dropWhile_cons, hc]

theorem serializeHeader_strip_self (p : Char) (d1 d2 : Date) (text : Str) (ext : Bool)
    (hp : p ∈ PRIORITY_MARKERS) :
    pyStrip (ObservationEntry.serializeHeader ⟨p, d1, d2, text, ext⟩) =
      ObservationEntry.serializeHeader ⟨p, d1, d2, text, ext⟩ := by
  unfold pyStrip
  rw [serializeHeader_cons, pyLstrip_cons_of_not_space _ _ (markers_not_space _ hp),
    ← serializeHeader_cons]
  exact serializeHeader_rstrip p d1 d2 text ext

theorem serialize_strip_empty_text (p : Char) (d1 d2 : Date) (ext : Bool)
    (hp : p ∈ PRIORITY_MARKERS) :
    pyStrip (ObservationEntry.serialize ⟨p, d1, d2, [], ext⟩) =
      ObservationEntry.serializeHeader ⟨p, d1, d2, [], ext⟩ := by
  unfold pyStrip
  rw [serialize_lstrip p d1 d2 [] ext hp]
  have hd : ObservationEntry.serialize ⟨p, d1, d2, [], ext⟩ =
      ObservationEntry.serializeHeader ⟨p, d1, d2, [], ext⟩ ++ ['\n'] := rfl
  rw [hd, pyRstrip_append_space _ _ (by decide)]
  exact serializeHeader_rstrip p d1 d2 [] ext

theorem parseBlock_serialize_nonempty (p : Char) (d1 d2 : Date) (text : Str) (ext : Bool)
    (hp : p ∈ PRIORITY_MARKERS) (h1 : d1.valid = true) (h2 : d2.valid = true)
    (ht : pyStrip text = text) (hne : text ≠ []) :
    parseBlock (ObservationEntry.serialize ⟨p, d1, d2, text, ext⟩) =
      .entry ⟨p, d1, d2, text, ext⟩ := by
  have hie : (ObservationEntry.serialize ⟨p, d1, d2, text, ext⟩).isEmpty = false := by
    rw [serialize_cons]
    rfl
  have hsf : splitFirstNl (ObservationEntry.serialize ⟨p, d1, d2, text, ext⟩) =
      (ObservationEntry.serializeHeader ⟨p, d1, d2, text, ext⟩, some text) := by
    show splitFirstNl (ObservationEntry.serializeHeader ⟨p, d1, d2, text, ext⟩ ++
      '\n' :: text) = _
    exact splitFirstNl_append _ _ (not_nl_mem_serializeHeader p d1 d2 text ext hp)
  simp only [parseBlock]
  rw [serialize_strip_self p d1 d2 text ext hp ht hne]
  rw [if_neg (by rw [hie]; simp)]
  rw [hsf]
  show (match matchHeader (ObservationEntry.serializeHeader ⟨p, d1, d2, text, ext⟩) with
    | none => BlockResult.skip
    | some (g, d1x, d2x, extx) =>
      if d1x.valid && d2x.valid then BlockResult.entry ⟨g, d1x, d2x, pyStrip text, extx⟩
      else BlockResult.err) = BlockResult.entry ⟨p, d1, d2, text, ext⟩
  rw [matchHeader_serializeHeader p d1 d2 text ext hp h1 h2]
  show (if d1.valid && d2.valid then BlockResult.entry ⟨p, d1, d2, pyStrip text, ext⟩
      else BlockResult.err) = BlockResult.entry ⟨p, d1, d2, text, ext⟩
  rw [h1, h2, ht]
  rfl

theorem parseBlock_header (p : Char) (d1 d2 : Date) (ext : Bool)
    (hp : p ∈ PRIORITY_MARKERS) (h1 : d1.valid = true) (h2 : d2.valid = true) :
    parseBlock (ObservationEntry.serializeHeader ⟨p, d1, d2, [], ext⟩) =
      .entry ⟨p, d1, d2, [], ext⟩ := by
  have hie : (ObservationEntry.serializeHeader ⟨p, d1, d2, [], ext⟩).isEmpty = false := by
    rw [serializeHeader_cons]
    rfl
  have hsf : splitFirstNl (ObservationEntry.serializeHeader ⟨p, d1, d2, [], ext⟩) =
      (ObservationEntry.serializeHeader ⟨p, d1, d2, [], ext⟩, none) :=
    splitFirstNl_no_nl _ (not_nl_mem_serializeHeader p d1 d2 [] ext hp)
  simp only [parseBlock]
  rw [serializeHeader_strip_self p d1 d2 [] ext hp]
  rw [if_neg (by rw [hie]; simp)]
  rw [hsf]
  show (match matchHeader (ObservationEntry.serializeHeader ⟨p, d1, d2, [], ext⟩) with
    | none => BlockResult.skip
    | some (g, d1x, d2x, extx) =>
      if d1x.valid && d2x.valid then BlockResult.entry ⟨g, d1x, d2x, [], extx⟩
      else BlockResult.err) = BlockResult.entry ⟨p, d1, d2, [], ext⟩
  rw [matchHeader_serializeHeader p d1 d2 [] ext hp h1 h2]
  show (if d1.valid && d2.valid then BlockResult.entry ⟨p, d1, d2, [], ext⟩
      else BlockResult.err) = BlockResult.entry ⟨p, d1, d2, [], ext⟩
  rw [h1, h2]
  rfl

/-- C2 counterexample: an entry whose text contains a blank line does not
round-trip — the parser splits its serialized form at the blank line, keeps
only the first fragment of the text, and drops the rest. -/
theorem roundTrip_blank_line_counterexample :
    parseObservations (ObservationEntry.serialize
        ⟨'🔴', ⟨2026, 2, 23⟩, ⟨2026, 2, 22⟩, "a\n\nb".data, false⟩) ≠
      some [⟨'🔴', ⟨2026, 2, 23⟩, ⟨2026, 2, 22⟩, "a\n\nb".data, false⟩] ∧
    parseObservations (ObservationEntry.serialize
        ⟨'🔴', ⟨2026, 2, 23⟩, ⟨2026, 2, 22⟩, "a\n\nb".data, false⟩) =
      some [⟨'🔴', ⟨2026, 2, 23⟩, ⟨2026, 2, 22⟩, "a".data, false⟩] ∧
    parseObservations (ObservationEntry.serialize
        ⟨'🟢', ⟨2026, 2, 23⟩, ⟨2026, 2, 23⟩, " padded ".data, false⟩) =
      some [⟨'🟢', ⟨2026, 2, 23⟩, ⟨2026, 2, 23⟩, "padded".data, false⟩] := by
  refine ⟨?_, by decide, by decide⟩
  decide

/-- C2 amended: `_parse(serialize(e))` recovers exactly `[e]` (priority,
both dates, text and external flag) for every entry with a valid priority
glyph and valid dates whose text is whitespace-normalized (`text.strip() ==
text`) and contains no blank line; texts with surrounding whitespace or
blank lines are instead normalized or truncated by the parser, as the
counterexample shows.  Multi-line texts with single newlines round-trip. -/
theorem serialize_parse_roundTrip_amended (p : Char) (d1 d2 : Date) (text : Str)
    (ext : Bool) (hp : p ∈ PRIORITY_MARKERS) (h1 : d1.valid = true)
    (h2 : d2.valid = true) (ht : pyStrip text = text)
    (hnn : hasDoubleNl text = false) :
    parseObservations (ObservationEntry.serialize ⟨p, d1, d2, text, ext⟩) =
      some [⟨p, d1, d2, text, ext⟩] := by
  rcases text with _ | ⟨c, t⟩
  · unfold parseObservations
    rw [serialize_strip_empty_text p d1 d2 ext hp]
    rw [splitBlocks_no_double _
      (hasDoubleNl_of_not_mem _ (not_nl_mem_serializeHeader p d1 d2 [] ext hp))]
    simp [parseBlocks, parseBlock_header p d1 d2 ext hp h1 h2]
  · have hne : (c :: t : Str) ≠ [] := by simp
    have hcs : pyIsSpace c = false := pyStrip_eq_self_head _ ht c rfl
    have hcnl : ¬(c = '\n') := by
      intro he
      rw [he] at hcs
      cases hcs
    have hnd : hasDoubleNl (ObservationEntry.serialize ⟨p, d1, d2, c :: t, ext⟩) = false := by
      have hd : ObservationEntry.serialize ⟨p, d1, d2, c :: t, ext⟩ =
          ObservationEntry.serializeHeader ⟨p, d1, d2, c :: t, ext⟩ ++ '\n' :: c :: t := rfl
      have hnt : hasDoubleNl t = false := by
        simp only [hasDoubleNl, Bool.or_eq_false_iff] at hnn
        exact hnn.2
      rw [hd, hasDoubleNl_append_left _ _ (not_nl_mem_serializeHeader p d1 d2 _ ext hp)]
      simp [hasDoubleNl, hcnl, hnt]
    unfold parseObservations
    rw [serialize_strip_self p d1 d2 _ ext hp ht hne]
    rw [splitBlocks_no_double _ hnd]
    simp [parseBlocks, parseBlock_serialize_nonempty p d1 d2 _ ext hp h1 h2 ht hne]

/-- Witness for C2's amended round trip on a concrete multi-line entry. -/
theorem serialize_parse_roundTrip_witness :
    parseObservations (ObservationEntry.serialize
        ⟨'🟡', ⟨2026, 2, 23⟩, ⟨2026, 2, 20⟩, "Line one\nLine two".data, true⟩) =
      some [⟨'🟡', ⟨2026, 2, 23⟩, ⟨2026, 2, 20⟩, "Line one\nLine two".data, true⟩] :=
  serialize_parse_roundTrip_amended '🟡' ⟨2026, 2, 23⟩ ⟨2026, 2, 20⟩
    "Line one\nLine two".data true (by decide) (by decide) (by decide) (by decide)
    (by decide)

end Agentctx
